import Mathlib

/-!
Verification development for the riffusion interpolation page
(`riffusion/streamlit/pages/interpolation.py`).

The embedding is a shallow model of the module's algorithmic core:
the alpha scheduler (`np.linspace(0, 1, N)`), the per-run inference
request builder, the memoized per-step inference call
(`@st.experimental_memo run_interpolation`), the audio stitcher
(`pydub` concatenation with `crossfade=0`), and the output packager
(export + `seek(0)` + derived file name).

Machine floats are embedded as exact rationals (`ℚ`); external
collaborators (the diffusion pipeline, the spectrogram/audio codec,
image loading) are parameters of the model, matching the spec's
black-box treatment of them.
-/

namespace Riffusion

/-- Images are modelled opaquely by their content bytes. -/
abbrev Image := String

/-- Encoded audio (the per-step `io.BytesIO` contents) is modelled by its bytes. -/
abbrev AudioBytes := String

/-- Modelled from the spec: `PromptInput` lives in `riffusion.datatypes`,
which is outside the visible source.  Fields follow the spec's
PromptEndpoint (text prompt, numeric seed, denoising strength, optional
negative prompt) plus the guidance scale that the call site passes
explicitly; the negative prompt is optional and absent by default. -/
structure PromptInput where
  prompt : String
  seed : Int
  denoising : ℚ
  guidance : ℚ
  negative_prompt : Option String := none
deriving DecidableEq

/-- Modelled from the spec: `InferenceInput` lives in `riffusion.datatypes`,
outside the visible source.  Fields follow the construction at the call
site in `render_interpolation` (alpha, num_inference_steps,
seed_image_id, start, end). -/
structure InferenceInput where
  alpha : ℚ
  num_inference_steps : Int
  seed_image_id : String
  start : PromptInput
  «end» : PromptInput
deriving DecidableEq

/-- The widget values that back one interpolation run: everything
`render_interpolation` reads from the sidebar and the prompt form. -/
structure RunConfig where
  device : String
  extension : String
  num_interpolation_steps : ℕ
  num_inference_steps : Int
  guidance : ℚ
  init_image_name : String
  init_image_file : Option Image
  prompt_a : String
  seed_a : Int
  denoising_a : ℚ
  prompt_b : String
  seed_b : Int
  denoising_b : ℚ

/-- `np.linspace(0, 1, n)` in exact rational arithmetic: numpy computes
`arange(n) * step` with `step = (1 - 0)/(n - 1)`.  For `n = 1` the
rational convention `1/0 = 0` yields the single value `0`, matching
`np.linspace(0, 1, 1) = [0.0]`. -/
def linspace01 (n : ℕ) : List ℚ :=
  (List.range n).map (fun (i : ℕ) => (i : ℚ) * (1 / ((n : ℚ) - 1)))

/-- The dictionary assembled by `get_prompt_inputs`. -/
structure PromptDict where
  prompt : String
  seed : Int
  denoising : ℚ
  negative_prompt : Option String

/-- `get_prompt_inputs`: computes the prompt dictionary from widget
values; the `negative_prompt` key is present only when
`include_negative_prompt` is set (its default is `False`). -/
def get_prompt_inputs (prompt : String) (seed : Int) (denoising : ℚ)
    (include_negative_prompt : Bool := false)
    (negative_prompt_widget : String := "") : PromptDict :=
  { prompt := prompt
    seed := seed
    denoising := denoising
    negative_prompt :=
      if include_negative_prompt then some negative_prompt_widget else none }

/-- `PromptInput(guidance=guidance, **d)`: missing dictionary keys fall
back to the dataclass defaults (no negative prompt). -/
def PromptInput.ofDict (guidance : ℚ) (d : PromptDict) : PromptInput :=
  { prompt := d.prompt
    seed := d.seed
    denoising := d.denoising
    guidance := guidance
    negative_prompt := d.negative_prompt }

/-- `prompt_input_a = PromptInput(guidance=guidance, **get_prompt_inputs(key="a"))`. -/
def promptInputA (cfg : RunConfig) : PromptInput :=
  PromptInput.ofDict cfg.guidance (get_prompt_inputs cfg.prompt_a cfg.seed_a cfg.denoising_a)

/-- `prompt_input_b = PromptInput(guidance=guidance, **get_prompt_inputs(key="b"))`. -/
def promptInputB (cfg : RunConfig) : PromptInput :=
  PromptInput.ofDict cfg.guidance (get_prompt_inputs cfg.prompt_b cfg.seed_b cfg.denoising_b)

/-- The per-step loop body's request construction: one `InferenceInput`
per alpha, with the literal `seed_image_id="og_beat"` and the shared
endpoints, exactly as in the `for i, alpha in enumerate(alphas)` loop. -/
def buildRequests (cfg : RunConfig) : List InferenceInput :=
  (linspace01 cfg.num_interpolation_steps).map fun alpha =>
    { alpha := alpha
      num_inference_steps := cfg.num_inference_steps
      seed_image_id := "og_beat"
      start := promptInputA cfg
      «end» := promptInputB cfg }

/-- A decoded `pydub.AudioSegment`: raw sample data plus its frame rate. -/
structure AudioSegment where
  data : List Int
  frame_rate : ℕ
deriving DecidableEq

/-- `AudioSegment.append(other, crossfade=0)`: with zero crossfade the
sample data are concatenated directly; the left segment's frame rate is
kept (the pipeline's segments all share one rate, produced by one codec
configuration). -/
def AudioSegment.append (a b : AudioSegment) : AudioSegment :=
  { data := a.data ++ b.data, frame_rate := a.frame_rate }

/-- `duration_seconds`: sample count over frame rate. -/
def AudioSegment.duration_seconds (a : AudioSegment) : ℚ :=
  (a.data.length : ℚ) / (a.frame_rate : ℚ)

/-- The stitching loop: `concat_segment = audio_segments[0]` followed by
`concat_segment = concat_segment.append(segment, crossfade=0)` over the
rest.  `none` models the index error on an empty list (unreachable: the
step count is at least 1). -/
def stitchSegments : List AudioSegment → Option AudioSegment
  | [] => none
  | s :: rest => some (rest.foldl AudioSegment.append s)

/-- The result of one `run_interpolation` call: a spectrogram image and
the encoded audio bytes. -/
abbrev InferResult := Image × AudioBytes

/-- The memoization key of `@st.experimental_memo run_interpolation`:
the full argument tuple `(inputs, init_image, device, extension)`. -/
structure InferKey where
  inputs : InferenceInput
  init_image : Image
  device : String
  extension : String
deriving DecidableEq

/-- The process-lifetime cache backing `st.experimental_memo`. -/
structure Cache where
  entries : List (InferKey × InferResult)

/-- Association lookup in the cache entries. -/
def lookupKey : List (InferKey × InferResult) → InferKey → Option InferResult
  | [], _ => none
  | e :: rest, k => if e.1 = k then some e.2 else lookupKey rest k

/-- The empty cache (fresh process). -/
def Cache.empty : Cache := ⟨[]⟩

/-- One call to the memoized `run_interpolation`: on a hit the stored
result is returned with no computation; on a miss the wrapped function
runs once and its result is stored.  The third component counts how
often the underlying computation was invoked by this call (0 or 1). -/
def memoCall (compute : InferKey → InferResult) (k : InferKey) (c : Cache) :
    InferResult × Cache × ℕ :=
  match lookupKey c.entries k with
  | some v => (v, c, 0)
  | none => (compute k, ⟨(k, compute k) :: c.entries⟩, 1)

/-- The external collaborators, per the spec's black-box contracts:
diffusion inference, spectrogram→audio conversion, the audio codec, and
seed-image loading. -/
structure Collab where
  riffuse : InferenceInput → Image → Image
  audioFromImage : Image → String → String → AudioBytes
  decodeAudio : AudioBytes → AudioSegment
  encodeAudio : AudioSegment → String → String
  loadImage : String → Image

/-- The body of `run_interpolation`: riffuse the inputs against the init
image, then reconstruct audio from the spectrogram image in the chosen
output format. -/
def runInterpolationCompute (collab : Collab) (k : InferKey) : InferResult :=
  (collab.riffuse k.inputs k.init_image,
   collab.audioFromImage (collab.riffuse k.inputs k.init_image) k.device k.extension)

/-- The per-step loop: each key is passed to the memoized
`run_interpolation` strictly in order, each call starting only after the
previous returned (the Python loop is sequential).  Returns the step
results in order, the ordered trace of per-step inference calls, and the
final cache. -/
def runSteps (compute : InferKey → InferResult) :
    List InferKey → Cache → List InferResult × List InferKey × Cache
  | [], c => ([], [], c)
  | k :: rest, c =>
      let m := memoCall compute k c
      let s := runSteps compute rest m.2.1
      (m.1 :: s.1, k :: s.2.1, s.2.2)

/-- An `io.BytesIO`: contents plus the read position. -/
structure ByteStream where
  data : String
  pos : ℕ

/-- `concat_segment.export(audio_bytes, format=extension)`: writes the
encoded bytes, leaving the position at the end of the stream. -/
def exportToBytes (encode : AudioSegment → String → String)
    (seg : AudioSegment) (fmt : String) : ByteStream :=
  { data := encode seg fmt, pos := (encode seg fmt).length }

/-- `audio_bytes.seek(0)`: repositions the stream at its start. -/
def ByteStream.seek0 (b : ByteStream) : ByteStream :=
  { b with pos := 0 }

/-- `prompt.replace(' ', '_')`: for the single-character pattern this
Python call substitutes every space character by an underscore, i.e. an
elementwise character substitution. -/
def sanitizePrompt (s : String) : String :=
  String.mk (s.data.map fun c => if c = ' ' then '_' else c)

/-- The derived download name:
`f"{prompt_a.replace(' ', '_')}_{prompt_b.replace(' ', '_')}.{extension}"`. -/
def outputName (cfg : RunConfig) : String :=
  sanitizePrompt cfg.prompt_a ++ "_" ++ sanitizePrompt cfg.prompt_b
    ++ "." ++ cfg.extension

/-- The packaged final output: byte stream, file name, and duration. -/
structure Packaged where
  stream : ByteStream
  file_name : String
  duration_seconds : ℚ

/-- Typed abort reasons, per the spec's error taxonomy. -/
inductive RunError where
  | validationError
  | seedImageError
  | codecError
deriving DecidableEq

/-- Terminal state of one run. -/
inductive RunOutcome where
  | aborted : RunError → RunOutcome
  | packaged : Packaged → RunOutcome

/-- Seed-image resolution: `custom` uses the uploaded file (aborting if
none was uploaded), otherwise the named asset is loaded from the
`seed_images` directory. -/
def loadInitImage (collab : Collab) (cfg : RunConfig) : Option Image :=
  if cfg.init_image_name = "custom" then cfg.init_image_file
  else some (collab.loadImage cfg.init_image_name)

/-- The argument tuples passed to `run_interpolation`, one per request:
each request is paired with the resolved init image, the device and the
output extension. -/
def runKeysWith (cfg : RunConfig) (img : Image) : List InferKey :=
  (buildRequests cfg).map fun r =>
    { inputs := r, init_image := img,
      device := cfg.device, extension := cfg.extension }

/-- The whole run of `render_interpolation` past widget collection:
validate prompts, compute alphas, resolve the seed image, run the
per-step loop, stitch, export, and package.  Returns the outcome, the
ordered trace of per-step inference calls, and the final cache. -/
def runPipeline (collab : Collab) (cfg : RunConfig) (cache0 : Cache) :
    RunOutcome × List InferKey × Cache :=
  if cfg.prompt_a = "" ∨ cfg.prompt_b = "" then
    (.aborted .validationError, [], cache0)
  else
    match loadInitImage collab cfg with
    | none => (.aborted .seedImageError, [], cache0)
    | some init_image =>
      let s := runSteps (runInterpolationCompute collab) (runKeysWith cfg init_image) cache0
      let segments := s.1.map fun r => collab.decodeAudio r.2
      match stitchSegments segments with
      | none => (.aborted .codecError, s.2.1, s.2.2)
      | some seg =>
          (.packaged
            { stream := (exportToBytes collab.encodeAudio seg cfg.extension).seek0
              file_name := outputName cfg
              duration_seconds := seg.duration_seconds },
           s.2.1, s.2.2)

/-! ### Sample data for concrete instantiations -/

/-- A trivial instantiation of the external collaborators. -/
def sampleCollab : Collab :=
  { riffuse := fun _ img => img
    audioFromImage := fun img _ _ => img
    decodeAudio := fun b => { data := List.replicate b.length 0, frame_rate := 2 }
    encodeAudio := fun s fmt => fmt ++ String.mk (List.replicate s.data.length 'x')
    loadImage := fun name => name }

/-- The spec's concrete scenario: "church bells" to "jazz". -/
def sampleCfg : RunConfig :=
  { device := "cpu"
    extension := "mp3"
    num_interpolation_steps := 2
    num_inference_steps := 50
    guidance := 7
    init_image_name := "og_beat"
    init_image_file := none
    prompt_a := "church bells"
    seed_a := 42
    denoising_a := 3/4
    prompt_b := "jazz"
    seed_b := 43
    denoising_b := 3/4 }

/-- A single-step variant of the sample configuration. -/
def sampleCfg1 : RunConfig :=
  { sampleCfg with num_interpolation_steps := 1 }

/-- A variant with an empty prompt A. -/
def sampleCfgEmpty : RunConfig :=
  { sampleCfg with prompt_a := "" }

/-- The first request of the sample run (alpha 0). -/
def reqW : InferenceInput :=
  { alpha := 0
    num_inference_steps := sampleCfg.num_inference_steps
    seed_image_id := "og_beat"
    start := promptInputA sampleCfg
    «end» := promptInputB sampleCfg }

/-! ### Helper lemmas -/

lemma linspace01_length (n : ℕ) : (linspace01 n).length = n := by
  rw [linspace01, List.length_map, List.length_range]

lemma linspace01_one : linspace01 1 = [0] := by
  simp [linspace01, List.range_succ]

lemma linspace01_getD (n i : ℕ) (h : i < n) :
    (linspace01 n).getD i 0 = (i : ℚ) / ((n : ℚ) - 1) := by
  rw [linspace01, List.getD_eq_getElem?_getD, List.getElem?_map,
    List.getElem?_range h]
  simp only [Option.map_some', Option.getD_some]
  rw [mul_one_div]

lemma linspace01_chain_lt (n : ℕ) : List.Chain' (· < ·) (linspace01 n) := by
  match n with
  | 0 => simp [linspace01]
  | 1 => simp [linspace01, List.range_succ]
  | (m + 2) =>
    rw [linspace01, List.chain'_map, List.chain'_range_succ]
    intro i _
    have hstep : (0 : ℚ) < 1 / (((m + 2 : ℕ) : ℚ) - 1) := by
      apply one_div_pos.mpr
      push_cast
      linarith
    apply mul_lt_mul_of_pos_right _ hstep
    exact_mod_cast Nat.lt_succ_self i

lemma linspace01_chain_le (n : ℕ) : List.Chain' (· ≤ ·) (linspace01 n) :=
  List.Chain'.imp (fun _ _ h => le_of_lt h) (linspace01_chain_lt n)

lemma linspace01_head (n : ℕ) (h : 1 ≤ n) : (linspace01 n).head? = some 0 := by
  obtain ⟨m, rfl⟩ : ∃ m, n = m + 1 := ⟨n - 1, (Nat.succ_pred_eq_of_pos h).symm⟩
  rw [linspace01, List.range_succ_eq_map]
  simp

lemma linspace01_getLast (n : ℕ) (h : 2 ≤ n) :
    (linspace01 n).getLast? = some 1 := by
  obtain ⟨m, rfl⟩ : ∃ m, n = m + 2 := ⟨n - 2, by omega⟩
  rw [linspace01, List.range_succ, List.map_append, List.map_singleton,
    List.getLast?_concat]
  congr 1
  have h1 : (((m + 2 : ℕ) : ℚ) - 1) = ((m + 1 : ℕ) : ℚ) := by
    push_cast
    ring
  rw [h1, mul_one_div, div_self]
  exact Nat.cast_ne_zero.mpr (Nat.succ_ne_zero m)

lemma buildRequests_map_alpha (cfg : RunConfig) :
    (buildRequests cfg).map InferenceInput.alpha
      = linspace01 cfg.num_interpolation_steps := by
  rw [buildRequests, List.map_map]
  exact List.map_id _

lemma runSteps_trace (compute : InferKey → InferResult) :
    ∀ (keys : List InferKey) (c : Cache),
      (runSteps compute keys c).2.1 = keys := by
  intro keys
  induction keys with
  | nil => intro c; rfl
  | cons k rest ih => intro c; simp [runSteps, ih]

lemma runSteps_results_length (compute : InferKey → InferResult) :
    ∀ (keys : List InferKey) (c : Cache),
      (runSteps compute keys c).1.length = keys.length := by
  intro keys
  induction keys with
  | nil => intro c; rfl
  | cons k rest ih => intro c; simp [runSteps, ih]

lemma foldl_append_spec :
    ∀ (rest : List AudioSegment) (s : AudioSegment),
      (rest.foldl AudioSegment.append s).frame_rate = s.frame_rate ∧
      ((rest.foldl AudioSegment.append s).data).length
        = s.data.length + (rest.map fun x => x.data.length).sum := by
  intro rest
  induction rest with
  | nil => intro s; simp
  | cons x rest ih =>
      intro s
      obtain ⟨h1, h2⟩ := ih (s.append x)
      refine ⟨?_, ?_⟩
      · rw [List.foldl_cons, h1]
        rfl
      · rw [List.foldl_cons, h2]
        simp only [AudioSegment.append, List.length_append, List.map_cons,
          List.sum_cons]
        omega

lemma runKeysWith_length (cfg : RunConfig) (img : Image) :
    (runKeysWith cfg img).length = cfg.num_interpolation_steps := by
  rw [runKeysWith, List.length_map, buildRequests, List.length_map,
    linspace01_length]

lemma runKeysWith_map_alpha (cfg : RunConfig) (img : Image) :
    (runKeysWith cfg img).map (fun k => k.inputs.alpha)
      = linspace01 cfg.num_interpolation_steps := by
  rw [runKeysWith, List.map_map, buildRequests, List.map_map]
  exact List.map_id _

lemma runPipeline_trace_eq (collab : Collab) (cfg : RunConfig) (cache0 : Cache)
    (img : Image) (hv : ¬(cfg.prompt_a = "" ∨ cfg.prompt_b = ""))
    (himg : loadInitImage collab cfg = some img) :
    (runPipeline collab cfg cache0).2.1 = runKeysWith cfg img := by
  rw [runPipeline, if_neg hv, himg]
  cases hstitch : stitchSegments
      ((runSteps (runInterpolationCompute collab) (runKeysWith cfg img)
        cache0).1.map fun r => collab.decodeAudio r.2) with
  | none => simp [hstitch, runSteps_trace]
  | some seg => simp [hstitch, runSteps_trace]

lemma runPipeline_success (collab : Collab) (cfg : RunConfig) (cache0 : Cache)
    (img : Image) (hv : ¬(cfg.prompt_a = "" ∨ cfg.prompt_b = ""))
    (himg : loadInitImage collab cfg = some img)
    (hN : 1 ≤ cfg.num_interpolation_steps) :
    ∃ seg,
      stitchSegments
        ((runSteps (runInterpolationCompute collab) (runKeysWith cfg img)
          cache0).1.map fun r => collab.decodeAudio r.2) = some seg ∧
      runPipeline collab cfg cache0 =
        (.packaged
          { stream := (exportToBytes collab.encodeAudio seg cfg.extension).seek0
            file_name := outputName cfg
            duration_seconds := seg.duration_seconds },
         runKeysWith cfg img,
         (runSteps (runInterpolationCompute collab) (runKeysWith cfg img)
           cache0).2.2) := by
  have hlen :
      ((runSteps (runInterpolationCompute collab) (runKeysWith cfg img)
        cache0).1.map fun r => collab.decodeAudio r.2).length
        = cfg.num_interpolation_steps := by
    rw [List.length_map, runSteps_results_length, runKeysWith_length]
  cases hsegs : (runSteps (runInterpolationCompute collab) (runKeysWith cfg img)
      cache0).1.map fun r => collab.decodeAudio r.2 with
  | nil =>
      rw [hsegs] at hlen
      simp at hlen
      omega
  | cons x rest =>
      refine ⟨rest.foldl AudioSegment.append x, rfl, ?_⟩
      rw [runPipeline, if_neg hv, himg]
      simp only [hsegs, stitchSegments, runSteps_trace]

lemma foldl_append_data :
    ∀ (rest : List AudioSegment) (s : AudioSegment),
      (rest.foldl AudioSegment.append s).data
        = s.data ++ (rest.map AudioSegment.data).flatten := by
  intro rest
  induction rest with
  | nil => intro s; simp
  | cons x rest ih =>
      intro s
      rw [List.foldl_cons, ih (s.append x)]
      simp [AudioSegment.append]

lemma sum_cast_div (l : List ℕ) (r : ℚ) :
    (l.map fun (x : ℕ) => (x : ℚ) / r).sum = ((l.sum : ℕ) : ℚ) / r := by
  induction l with
  | nil => simp
  | cons a l ih =>
      simp only [List.map_cons, List.sum_cons, ih, List.sum_cons]
      rw [div_add_div_same]
      push_cast
      ring_nf

lemma linspace01_two : linspace01 2 = [0, 1] := by
  simp [linspace01, List.range_succ]
  norm_num

lemma reqW_mem : reqW ∈ buildRequests sampleCfg := by
  rw [buildRequests,
    show sampleCfg.num_interpolation_steps = 2 from rfl, linspace01_two]
  exact List.mem_cons_self _ _

/-! ### Claims -/

/-- Claim C1: for every step count `N` with `1 ≤ N ≤ 20`, the alpha
scheduler produces exactly `N` evenly spaced values with
`value[i] = i/(N-1)` for `N > 1` and the single value `0` for `N = 1`;
the sequence is non-decreasing, starts at `0`, ends at `1` (`0` when
`N = 1`), and the full-precision values are the ones carried into the
inference requests. -/
theorem claim_C1_alpha_scheduler (N : ℕ) (h1 : 1 ≤ N) (h2 : N ≤ 20) :
    (linspace01 N).length = N ∧
    (∀ i : ℕ, i < N → (linspace01 N).getD i 0 = (i : ℚ) / ((N : ℚ) - 1)) ∧
    (N = 1 → linspace01 N = [0]) ∧
    List.Chain' (· ≤ ·) (linspace01 N) ∧
    (linspace01 N).head? = some 0 ∧
    (linspace01 N).getLast? = some (if N = 1 then 0 else 1) ∧
    (∀ cfg : RunConfig, cfg.num_interpolation_steps = N →
      (buildRequests cfg).map InferenceInput.alpha = linspace01 N) := by
  refine ⟨linspace01_length N, fun i hi => linspace01_getD N i hi,
    ?_, linspace01_chain_le N, linspace01_head N h1, ?_, ?_⟩
  · intro hN
    rw [hN]
    exact linspace01_one
  · by_cases hN : N = 1
    · rw [if_pos hN, hN, linspace01_one]
      rfl
    · rw [if_neg hN]
      exact linspace01_getLast N (by omega)
  · intro cfg hcfg
    exact hcfg ▸ buildRequests_map_alpha cfg

/-- Concrete instantiation of C1 at `N = 4` (the widget's default). -/
theorem claim_C1_witness :
    ((1 ≤ 4 ∧ 4 ≤ 20) ∧
      ((linspace01 4).length = 4 ∧
       (∀ i : ℕ, i < 4 → (linspace01 4).getD i 0 = (i : ℚ) / ((4 : ℚ) - 1)) ∧
       (4 = 1 → linspace01 4 = [0]) ∧
       List.Chain' (· ≤ ·) (linspace01 4) ∧
       (linspace01 4).head? = some 0 ∧
       (linspace01 4).getLast? = some (if 4 = 1 then 0 else 1) ∧
       (∀ cfg : RunConfig, cfg.num_interpolation_steps = 4 →
         (buildRequests cfg).map InferenceInput.alpha = linspace01 4))) :=
  ⟨⟨by decide, by decide⟩, claim_C1_alpha_scheduler 4 (by decide) (by decide)⟩

/-- Claim C2: the audio stitcher concatenates the per-step segments in
index order with zero crossfade and no trimming, so the stitched
duration equals exactly the sum of the segment durations (the segments
share one frame rate, all being produced by the same codec settings). -/
theorem claim_C2_stitch_additive (segs : List AudioSegment) (r : ℕ)
    (hne : segs ≠ []) (hr : ∀ s ∈ segs, s.frame_rate = r) :
    ∃ out, stitchSegments segs = some out ∧
      out.data = (segs.map AudioSegment.data).flatten ∧
      out.data.length = (segs.map fun s => s.data.length).sum ∧
      out.duration_seconds = (segs.map AudioSegment.duration_seconds).sum := by
  match segs, hne with
  | s :: rest, _ =>
    refine ⟨rest.foldl AudioSegment.append s, rfl, ?_, ?_, ?_⟩
    · rw [foldl_append_data rest s]
      simp
    · rw [(foldl_append_spec rest s).2]
      simp
    · obtain ⟨hrate, hlen⟩ := foldl_append_spec rest s
      rw [AudioSegment.duration_seconds, hrate, hlen,
        hr s (List.mem_cons_self _ _)]
      have hmap : (s :: rest).map AudioSegment.duration_seconds
          = ((s :: rest).map fun x => x.data.length).map
              (fun (L : ℕ) => (L : ℚ) / (r : ℚ)) := by
        rw [List.map_map]
        refine List.map_congr_left ?_
        intro x hx
        simp only [Function.comp]
        rw [AudioSegment.duration_seconds, hr x hx]
      rw [hmap, sum_cast_div]
      congr 1

/-- Concrete instantiation of C2 on two segments. -/
theorem claim_C2_witness :
    (([⟨[0, 1], 2⟩, ⟨[2], 2⟩] : List AudioSegment) ≠ [] ∧
      (∀ s ∈ ([⟨[0, 1], 2⟩, ⟨[2], 2⟩] : List AudioSegment), s.frame_rate = 2)) ∧
    (∃ out,
      stitchSegments ([⟨[0, 1], 2⟩, ⟨[2], 2⟩] : List AudioSegment) = some out ∧
      out.data = (([⟨[0, 1], 2⟩, ⟨[2], 2⟩] : List AudioSegment).map
          AudioSegment.data).flatten ∧
      out.data.length
        = (([⟨[0, 1], 2⟩, ⟨[2], 2⟩] : List AudioSegment).map
            fun s => s.data.length).sum ∧
      out.duration_seconds
        = (([⟨[0, 1], 2⟩, ⟨[2], 2⟩] : List AudioSegment).map
            AudioSegment.duration_seconds).sum) :=
  ⟨⟨by decide, by decide⟩,
    claim_C2_stitch_additive _ 2 (by decide) (by decide)⟩

/-- Claim C3: the per-step inference call is memoized on the full
argument tuple: a second call with a value-identical key performs no
computation and returns the previously computed result; across the two
calls the underlying collaborator runs at most once. -/
theorem claim_C3_memoized (collab : Collab) (k : InferKey) (c : Cache) :
    (memoCall (runInterpolationCompute collab) k
      ((memoCall (runInterpolationCompute collab) k c).2.1)).2.2 = 0 ∧
    (memoCall (runInterpolationCompute collab) k
      ((memoCall (runInterpolationCompute collab) k c).2.1)).1
      = (memoCall (runInterpolationCompute collab) k c).1 ∧
    (memoCall (runInterpolationCompute collab) k c).2.2 +
      (memoCall (runInterpolationCompute collab) k
        ((memoCall (runInterpolationCompute collab) k c).2.1)).2.2 ≤ 1 := by
  cases hlk : lookupKey c.entries k with
  | some v => simp [memoCall, hlk]
  | none => simp [memoCall, hlk, lookupKey]

/-- Claim C4: if either endpoint's prompt is empty, the run aborts with
a validation error before any request is built; the trace of per-step
inference calls is empty and the cache is untouched. -/
theorem claim_C4_empty_prompt_aborts (collab : Collab) (cfg : RunConfig)
    (cache0 : Cache) (h : cfg.prompt_a = "" ∨ cfg.prompt_b = "") :
    runPipeline collab cfg cache0
      = (.aborted .validationError, [], cache0) := by
  rw [runPipeline, if_pos h]

/-- Concrete instantiation of C4 with an empty prompt A. -/
theorem claim_C4_witness :
    (sampleCfgEmpty.prompt_a = "" ∨ sampleCfgEmpty.prompt_b = "") ∧
    runPipeline sampleCollab sampleCfgEmpty Cache.empty
      = (.aborted .validationError, [], Cache.empty) :=
  ⟨Or.inl rfl, claim_C4_empty_prompt_aborts sampleCollab sampleCfgEmpty
    Cache.empty (Or.inl rfl)⟩

/-- Claim C5: a run with valid inputs completes, makes exactly `N`
per-step inference calls, one per alpha, and the trace of calls (which
the sequential loop issues one at a time, each beginning only after the
previous returned) is in strictly ascending alpha order. -/
theorem claim_C5_sequential_calls (collab : Collab) (cfg : RunConfig)
    (cache0 : Cache) (img : Image)
    (ha : cfg.prompt_a ≠ "") (hb : cfg.prompt_b ≠ "")
    (himg : loadInitImage collab cfg = some img)
    (hN : 1 ≤ cfg.num_interpolation_steps) :
    (∃ p, (runPipeline collab cfg cache0).1 = RunOutcome.packaged p) ∧
    ((runPipeline collab cfg cache0).2.1).length
      = cfg.num_interpolation_steps ∧
    ((runPipeline collab cfg cache0).2.1).map (fun k => k.inputs.alpha)
      = linspace01 cfg.num_interpolation_steps ∧
    List.Chain' (· < ·)
      (((runPipeline collab cfg cache0).2.1).map fun k => k.inputs.alpha) := by
  have hv : ¬(cfg.prompt_a = "" ∨ cfg.prompt_b = "") := by
    push_neg
    exact ⟨ha, hb⟩
  obtain ⟨seg, _, hrun⟩ := runPipeline_success collab cfg cache0 img hv himg hN
  have htr : (runPipeline collab cfg cache0).2.1 = runKeysWith cfg img := by
    rw [hrun]
  refine ⟨⟨_, by rw [hrun]⟩, ?_, ?_, ?_⟩
  · rw [htr, runKeysWith_length]
  · rw [htr, runKeysWith_map_alpha]
  · rw [htr, runKeysWith_map_alpha]
    exact linspace01_chain_lt _

/-- Concrete instantiation of C5 on the sample run. -/
theorem claim_C5_witness :
    (sampleCfg.prompt_a ≠ "" ∧ sampleCfg.prompt_b ≠ "" ∧
      loadInitImage sampleCollab sampleCfg = some "og_beat" ∧
      1 ≤ sampleCfg.num_interpolation_steps) ∧
    ((∃ p, (runPipeline sampleCollab sampleCfg Cache.empty).1
        = RunOutcome.packaged p) ∧
     ((runPipeline sampleCollab sampleCfg Cache.empty).2.1).length
        = sampleCfg.num_interpolation_steps ∧
     ((runPipeline sampleCollab sampleCfg Cache.empty).2.1).map
        (fun k => k.inputs.alpha)
        = linspace01 sampleCfg.num_interpolation_steps ∧
     List.Chain' (· < ·)
        (((runPipeline sampleCollab sampleCfg Cache.empty).2.1).map
          fun k => k.inputs.alpha)) :=
  ⟨⟨by decide, by decide, by decide, by decide⟩,
    claim_C5_sequential_calls sampleCollab sampleCfg Cache.empty "og_beat"
      (by decide) (by decide) (by decide) (by decide)⟩

/-- Claim C6: within one run, across the ordered requests only the
alpha field varies; the inference-step count, the seed-image
identifier, both endpoints, and the guidance scale carried by both
endpoints are identical in every request. -/
theorem claim_C6_only_alpha_varies (cfg : RunConfig) (r : InferenceInput)
    (hr : r ∈ buildRequests cfg) :
    r.num_inference_steps = cfg.num_inference_steps ∧
    r.seed_image_id = "og_beat" ∧
    r.start = promptInputA cfg ∧
    r.«end» = promptInputB cfg ∧
    r.start.guidance = cfg.guidance ∧
    r.«end».guidance = cfg.guidance := by
  rw [buildRequests] at hr
  obtain ⟨a, _, rfl⟩ := List.mem_map.mp hr
  exact ⟨rfl, rfl, rfl, rfl, rfl, rfl⟩

/-- Concrete instantiation of C6 on the sample run's first request. -/
theorem claim_C6_witness :
    reqW ∈ buildRequests sampleCfg ∧
    (reqW.num_inference_steps = sampleCfg.num_inference_steps ∧
     reqW.seed_image_id = "og_beat" ∧
     reqW.start = promptInputA sampleCfg ∧
     reqW.«end» = promptInputB sampleCfg ∧
     reqW.start.guidance = sampleCfg.guidance ∧
     reqW.«end».guidance = sampleCfg.guidance) :=
  ⟨reqW_mem, claim_C6_only_alpha_varies sampleCfg reqW reqW_mem⟩

/-- Claim C7: a single-step run produces exactly one step result, the
stitching loop over the remaining segments is empty so the stitched
segment is that step's decoded segment verbatim, and the packaged bytes
are exactly the re-encode of that single step's own audio. -/
theorem claim_C7_single_step (collab : Collab) (cfg : RunConfig)
    (cache0 : Cache) (img : Image)
    (ha : cfg.prompt_a ≠ "") (hb : cfg.prompt_b ≠ "")
    (himg : loadInitImage collab cfg = some img)
    (h1 : cfg.num_interpolation_steps = 1) :
    ∃ p res,
      (runPipeline collab cfg cache0).1 = RunOutcome.packaged p ∧
      (runSteps (runInterpolationCompute collab) (runKeysWith cfg img)
        cache0).1 = [res] ∧
      stitchSegments [collab.decodeAudio res.2]
        = some (collab.decodeAudio res.2) ∧
      p.stream.data
        = collab.encodeAudio (collab.decodeAudio res.2) cfg.extension ∧
      p.duration_seconds = (collab.decodeAudio res.2).duration_seconds := by
  have hv : ¬(cfg.prompt_a = "" ∨ cfg.prompt_b = "") := by
    push_neg
    exact ⟨ha, hb⟩
  obtain ⟨seg, hstitch, hrun⟩ :=
    runPipeline_success collab cfg cache0 img hv himg (by omega)
  obtain ⟨k0, hk0⟩ : ∃ k0, runKeysWith cfg img = [k0] := by
    apply List.length_eq_one.mp
    rw [runKeysWith_length, h1]
  have hres : (runSteps (runInterpolationCompute collab)
      (runKeysWith cfg img) cache0).1
      = [(memoCall (runInterpolationCompute collab) k0 cache0).1] := by
    rw [hk0]
    rfl
  have hseg : seg
      = collab.decodeAudio (memoCall (runInterpolationCompute collab) k0
          cache0).1.2 := by
    rw [hres] at hstitch
    exact (Option.some.inj hstitch).symm
  refine ⟨{ stream := (exportToBytes collab.encodeAudio seg
              cfg.extension).seek0
            file_name := outputName cfg
            duration_seconds := seg.duration_seconds },
    (memoCall (runInterpolationCompute collab) k0 cache0).1,
    ?_, hres, rfl, ?_, ?_⟩
  · rw [hrun]
  · show collab.encodeAudio seg cfg.extension = _
    rw [hseg]
  · show seg.duration_seconds = _
    rw [hseg]

/-- Concrete instantiation of C7 on a single-step sample run. -/
theorem claim_C7_witness :
    (sampleCfg1.prompt_a ≠ "" ∧ sampleCfg1.prompt_b ≠ "" ∧
      loadInitImage sampleCollab sampleCfg1 = some "og_beat" ∧
      sampleCfg1.num_interpolation_steps = 1) ∧
    (∃ p res,
      (runPipeline sampleCollab sampleCfg1 Cache.empty).1
        = RunOutcome.packaged p ∧
      (runSteps (runInterpolationCompute sampleCollab)
        (runKeysWith sampleCfg1 "og_beat") Cache.empty).1 = [res] ∧
      stitchSegments [sampleCollab.decodeAudio res.2]
        = some (sampleCollab.decodeAudio res.2) ∧
      p.stream.data
        = sampleCollab.encodeAudio (sampleCollab.decodeAudio res.2)
            sampleCfg1.extension ∧
      p.duration_seconds
        = (sampleCollab.decodeAudio res.2).duration_seconds) :=
  ⟨⟨by decide, by decide, by decide, by decide⟩,
    claim_C7_single_step sampleCollab sampleCfg1 Cache.empty "og_beat"
      (by decide) (by decide) (by decide) (by decide)⟩

/-- Claim C8: the output packager derives the display name by replacing
spaces with underscores in each prompt, joining them with an underscore
and appending a dot and the chosen extension, and exposes the final
encoded byte stream positioned at its start. -/
theorem claim_C8_packager (collab : Collab) (cfg : RunConfig)
    (cache0 : Cache) (img : Image)
    (ha : cfg.prompt_a ≠ "") (hb : cfg.prompt_b ≠ "")
    (himg : loadInitImage collab cfg = some img)
    (hN : 1 ≤ cfg.num_interpolation_steps) :
    ∃ p, (runPipeline collab cfg cache0).1 = RunOutcome.packaged p ∧
      p.file_name = sanitizePrompt cfg.prompt_a ++ "_"
        ++ sanitizePrompt cfg.prompt_b ++ "." ++ cfg.extension ∧
      p.stream.pos = 0 := by
  have hv : ¬(cfg.prompt_a = "" ∨ cfg.prompt_b = "") := by
    push_neg
    exact ⟨ha, hb⟩
  obtain ⟨seg, _, hrun⟩ := runPipeline_success collab cfg cache0 img hv himg hN
  refine ⟨{ stream := (exportToBytes collab.encodeAudio seg
              cfg.extension).seek0
            file_name := outputName cfg
            duration_seconds := seg.duration_seconds },
    ?_, rfl, rfl⟩
  rw [hrun]

/-- Concrete instantiation of C8: the sample run's derived name is
`church_bells_jazz.mp3` and the stream is positioned at 0. -/
theorem claim_C8_witness :
    (sampleCfg.prompt_a ≠ "" ∧ sampleCfg.prompt_b ≠ "" ∧
      loadInitImage sampleCollab sampleCfg = some "og_beat" ∧
      1 ≤ sampleCfg.num_interpolation_steps) ∧
    (∃ p, (runPipeline sampleCollab sampleCfg Cache.empty).1
        = RunOutcome.packaged p ∧
      p.file_name = "church_bells_jazz.mp3" ∧
      p.stream.pos = 0) := by
  refine ⟨⟨by decide, by decide, by decide, by decide⟩, ?_⟩
  obtain ⟨p, h1, h2, h3⟩ := claim_C8_packager sampleCollab sampleCfg
    Cache.empty "og_beat" (by decide) (by decide) (by decide) (by decide)
  refine ⟨p, h1, ?_, h3⟩
  rw [h2]
  decide

/-- Claim C9: every per-step inference call carries a request whose
seed-image identifier is the literal `"og_beat"`, regardless of the
configured seed-image selection, while the actually selected image is
passed to the call separately as the init-image argument. -/
theorem claim_C9_seed_image_id (collab : Collab) (cfg : RunConfig)
    (cache0 : Cache) (img : Image)
    (himg : loadInitImage collab cfg = some img) :
    ∀ k ∈ (runPipeline collab cfg cache0).2.1,
      k.inputs.seed_image_id = "og_beat" ∧ k.init_image = img := by
  by_cases hv : cfg.prompt_a = "" ∨ cfg.prompt_b = ""
  · rw [runPipeline, if_pos hv]
    intro k hk
    exact absurd hk (List.not_mem_nil k)
  · rw [runPipeline_trace_eq collab cfg cache0 img hv himg]
    intro k hk
    rw [runKeysWith] at hk
    obtain ⟨r, hrmem, rfl⟩ := List.mem_map.mp hk
    rw [buildRequests] at hrmem
    obtain ⟨a, _, rfl⟩ := List.mem_map.mp hrmem
    exact ⟨rfl, rfl⟩

/-- Concrete instantiation of C9 on the sample run. -/
theorem claim_C9_witness :
    loadInitImage sampleCollab sampleCfg = some "og_beat" ∧
    (∀ k ∈ (runPipeline sampleCollab sampleCfg Cache.empty).2.1,
      k.inputs.seed_image_id = "og_beat" ∧ k.init_image = "og_beat") :=
  ⟨by decide,
    claim_C9_seed_image_id sampleCollab sampleCfg Cache.empty "og_beat"
      (by decide)⟩

/-- Claim C10: the prompt-input builder is invoked with negative
prompts excluded (the flag defaults to off), so neither endpoint of any
constructed request carries a negative prompt. -/
theorem claim_C10_no_negative_prompt (cfg : RunConfig) (r : InferenceInput)
    (hr : r ∈ buildRequests cfg) :
    (get_prompt_inputs cfg.prompt_a cfg.seed_a cfg.denoising_a).negative_prompt
      = none ∧
    (get_prompt_inputs cfg.prompt_b cfg.seed_b cfg.denoising_b).negative_prompt
      = none ∧
    r.start.negative_prompt = none ∧
    r.«end».negative_prompt = none := by
  rw [buildRequests] at hr
  obtain ⟨a, _, rfl⟩ := List.mem_map.mp hr
  exact ⟨rfl, rfl, rfl, rfl⟩

/-- Concrete instantiation of C10 on the sample run's first request. -/
theorem claim_C10_witness :
    reqW ∈ buildRequests sampleCfg ∧
    ((get_prompt_inputs sampleCfg.prompt_a sampleCfg.seed_a
        sampleCfg.denoising_a).negative_prompt = none ∧
     (get_prompt_inputs sampleCfg.prompt_b sampleCfg.seed_b
        sampleCfg.denoising_b).negative_prompt = none ∧
     reqW.start.negative_prompt = none ∧
     reqW.«end».negative_prompt = none) :=
  ⟨reqW_mem, claim_C10_no_negative_prompt sampleCfg reqW reqW_mem⟩

end Riffusion
